import Mathlib

/-!
# github_discord-bot: a shallow embedding of `bot.js`

The embedding follows `src/bot.js` function by function.

* JavaScript strings are Lean `String`s; the parsing functions work on the
  character list `String.data`. A JavaScript string is a sequence of UTF-16
  code units and a Lean string a sequence of code points; the operations used
  here (`startsWith`, `split(' ')`, `slice`, `trim`, the classes `\s` and
  `\S`) cut a string only next to a character of the basic plane, so they
  agree on both readings.
* The value held by the accumulator `score` is a JavaScript value, which `+=`
  can turn from a number into a string; it is modelled by `JsValue`.
* The outside world (the code-hosting API) is a pair of functions from
  requests to responses; every function that talks to it returns the list of
  requests it issued together with its outcome.
* A `while` loop takes a fuel argument; `pending` is the outcome of a
  computation that has not finished within the fuel.
* The chat platform accepts every send, delete and reaction; what a command
  does to it is recorded as a list of effects. The handler of one message runs
  to its end before the next message is looked at, and the callbacks of the
  reaction collector are left out.
-/

namespace GithubDiscordBot

/-! ## Data model -/

/-- One label of an activity item (`label.name`). -/
structure Label where
  name : String
  deriving DecidableEq, Repr

/-- An activity item returned by the search endpoint: a pull request or an issue. -/
structure Item where
  title : String
  html_url : String
  labels : List Label
  deriving DecidableEq, Repr

/-- The value of the variable `score`: a number, `NaN`, or a string once `+=` has
concatenated. The numbers are natural numbers: a score stays far below 2^53. -/
inductive JsValue where
  | number (n : Nat)
  | nan
  | string (s : String)
  deriving DecidableEq, Repr

/-- The result of the property read `labelPoints[labelName]` on the object literal
`{ level1: 10, level2: 25, level3: 45 }`, whose prototype is `Object.prototype`: a number,
a built-in function (by its name), the object `Object.prototype`, or `undefined`. -/
inductive PropValue where
  | number (n : Nat)
  | nativeFunction (fname : String)
  | objectPrototype
  | undefined
  deriving DecidableEq, Repr

/-! ## Score Calculator (`calculateDailyScores`, `calculateTotalScore`) -/

/-- The method `String.prototype.toLowerCase` on the ASCII letters. JavaScript also folds
letters outside ASCII; the only one folded into ASCII is U+212A, to `k`, a letter that
occurs in no property name that `labelPoints` answers after lower-casing. -/
def toLowerCase (s : String) : String := ⟨s.data.map Char.toLower⟩

/-- The property read `labelPoints[key]`: the three own properties, then the properties
inherited from `Object.prototype`. -/
def labelPoints (key : String) : PropValue :=
  if key = "level1" then .number 10
  else if key = "level2" then .number 25
  else if key = "level3" then .number 45
  else if key = "constructor" then .nativeFunction "Object"
  else if key = "__proto__" then .objectPrototype
  else if key = "hasOwnProperty" ∨ key = "isPrototypeOf" ∨ key = "propertyIsEnumerable"
      ∨ key = "toString" ∨ key = "toLocaleString" ∨ key = "valueOf"
      ∨ key = "__defineGetter__" ∨ key = "__defineSetter__"
      ∨ key = "__lookupGetter__" ∨ key = "__lookupSetter__" then .nativeFunction key
  else .undefined

/-- The truth value of a property value in `if (labelPoints[labelName])`. -/
def PropValue.truthy : PropValue → Bool
  | .number n => n != 0
  | .nativeFunction _ => true
  | .objectPrototype => true
  | .undefined => false

/-- The string a property value is converted to when it is an operand of `+`. -/
def PropValue.toPrimitiveString : PropValue → String
  | .number n => toString n
  | .nativeFunction fname => "function " ++ fname ++ "() \x7b [native code] \x7d"
  | .objectPrototype => "[object Object]"
  | .undefined => "undefined"

/-- Any JavaScript value as text (`.toString()`, template literals). -/
def JsValue.toString : JsValue → String
  | .number n => ToString.toString n
  | .nan => "NaN"
  | .string s => s

/-- The assignment `score += v`: addition when both sides are numbers or `undefined`,
concatenation of the two sides as text otherwise. -/
def plusAssign : JsValue → PropValue → JsValue
  | .number a, .number b => .number (a + b)
  | .number _, .undefined => .nan
  | .nan, .number _ => .nan
  | .nan, .undefined => .nan
  | .string s, v => .string (s ++ v.toPrimitiveString)
  | score, v => .string (score.toString ++ v.toPrimitiveString)

/-- The body of `pr.labels.forEach(label => ...)`, one label. -/
def scoreLabel (score : JsValue) (label : Label) : JsValue :=
  let labelName := toLowerCase label.name
  if (labelPoints labelName).truthy then plusAssign score (labelPoints labelName) else score

/-- The function `calculateDailyScores(mergedPRs)`: `reduce` over the items, `forEach` over
the labels of each item, from the score 0. -/
def calculateDailyScores (mergedPRs : List Item) : JsValue :=
  mergedPRs.foldl (fun score pr => pr.labels.foldl scoreLabel score) (.number 0)

/-- The function `calculateTotalScore(mergedPRs)`: the same text as `calculateDailyScores`. -/
def calculateTotalScore (mergedPRs : List Item) : JsValue :=
  mergedPRs.foldl (fun score pr => pr.labels.foldl scoreLabel score) (.number 0)

/-- The Label Point Table in the words of the specification: three tiers, 0 otherwise. -/
def lookup (labelName : String) : Nat :=
  if labelName = "level1" then 10
  else if labelName = "level2" then 25
  else if labelName = "level3" then 45
  else 0

/-- The score in the words of the specification: the sum over the items and over every
label of each item of the table value of the lower-cased label name. -/
def specScore (items : List Item) : Nat :=
  (items.map (fun pr => (pr.labels.map (fun l => lookup (toLowerCase l.name))).sum)).sum

/-- A label whose lower-cased name is a property `labelPoints` inherits, not one it owns. -/
def Label.inherited (l : Label) : Bool :=
  toLowerCase l.name = "constructor" || toLowerCase l.name = "__proto__"

/-! ## The code-hosting API and the Paginated Fetcher (`fetchPaginatedData`) -/

/-- An HTTP response: its status code and the value of `response.json()`. -/
structure Response (β : Type) where
  status : Nat
  json : β

/-- The getter `response.ok`: the status is in the range 200 to 299. -/
def Response.ok {β : Type} (r : Response β) : Bool :=
  decide (200 ≤ r.status) && decide (r.status ≤ 299)

/-- The request for one page of a search, the URL
`url ++ "&page=" ++ page ++ "&per_page=" ++ per_page` kept as its three parts. -/
structure Request where
  url : String
  page : Nat
  per_page : Nat
  deriving DecidableEq, Repr

/-- The body of a search response; the code reads `json.items`. -/
structure SearchBody where
  items : List Item

/-- The body of a profile response; the code reads `avatar_url`. -/
structure Profile where
  avatar_url : String
  deriving DecidableEq, Repr

/-- A thrown `new Error(message)`. -/
structure JsError where
  message : String
  deriving DecidableEq, Repr

/-- The state of a promise: not settled within the fuel, rejected, or fulfilled. -/
inductive Outcome (α : Type) where
  | pending
  | rejected (error : JsError)
  | fulfilled (value : α)
  deriving DecidableEq, Repr

/-- One call of `fetch`. -/
inductive HttpCall where
  | profile (url : String)
  | search (request : Request)
  deriving DecidableEq, Repr

/-- The `while (hasNextPage)` loop of `fetchPaginatedData` from the state `data`, `page`:
the requests issued, in order, and the outcome. One unit of fuel is one iteration. -/
def fetchPaginatedDataLoop (search : Request → Response SearchBody) (url : String) :
    Nat → List Item → Nat → List HttpCall × Outcome (List Item)
  | 0, _, _ => ([], .pending)
  | fuel + 1, data, page =>
    let response := search ⟨url, page, 100⟩
    if !response.ok then
      ([.search ⟨url, page, 100⟩],
        .rejected ⟨"Failed to fetch data from " ++ url ++ ". Status: " ++ toString response.status⟩)
    else
      let data := data ++ response.json.items
      if response.json.items.length = 100 then
        let rest := fetchPaginatedDataLoop search url fuel data (page + 1)
        (.search ⟨url, page, 100⟩ :: rest.1, rest.2)
      else
        ([.search ⟨url, page, 100⟩], .fulfilled data)

/-- The function `fetchPaginatedData(url)`: the loop from `data = []`, `page = 1`. -/
def fetchPaginatedData (search : Request → Response SearchBody) (url : String) (fuel : Nat) :
    List HttpCall × Outcome (List Item) :=
  fetchPaginatedDataLoop search url fuel [] 1

/-- The function `fetchUserProfile(username)`: one request, rejected when the response
is not `ok`, fulfilled with the parsed body otherwise. -/
def fetchUserProfile (users : String → Response (Option Profile)) (username : String) :
    List HttpCall × Outcome (Option Profile) :=
  let url := "https://api.github.com/users/" ++ username
  let response := users url
  if !response.ok then
    ([.profile url],
      .rejected ⟨"Failed to fetch user profile for " ++ username ++ ". Status: "
        ++ toString response.status⟩)
  else
    ([.profile url], .fulfilled response.json)

/-- The combinator `Promise.all` for two promises: rejected as soon as one is rejected, fulfilled when both
are. Which rejection wins depends on the order in which the promises settle; the model
takes the first in array order, and the callers use only the fact of a rejection. -/
def Outcome.both {α β : Type} : Outcome α → Outcome β → Outcome (α × β)
  | .rejected e, _ => .rejected e
  | _, .rejected e => .rejected e
  | .pending, _ => .pending
  | _, .pending => .pending
  | .fulfilled a, .fulfilled b => .fulfilled (a, b)

/-! ## User Activity Aggregator (`loadData`) -/

/-- The world a command runs in: the profile endpoint (by URL), the search endpoint and the
current UTC date `new Date().toISOString().split('T')[0]`. -/
structure Env where
  users : String → Response (Option Profile)
  search : Request → Response SearchBody
  today : String

/-- The result bundle of `loadData`. -/
structure Bundle where
  assignedIssues : List Item
  openPRs : List Item
  mergedPRs : List Item
  todayMergedPRs : List Item
  allTimeMergedPRs : List Item
  todayScore : JsValue

/-- The object `queries` of `loadData`. -/
structure Queries where
  assignedIssues : String
  openPRs : String
  mergedPRs : String
  todayMergedPRs : String

/-- The four search queries of `loadData` for an account and a date. -/
def queries (username today : String) : Queries :=
  { assignedIssues :=
      "search/issues?q=is:issue+assignee:" ++ username ++ "+state:open&sort=created&order=desc",
    openPRs :=
      "search/issues?q=is:pull-request+author:" ++ username
        ++ "+state:open&sort=created&order=desc",
    mergedPRs :=
      "search/issues?q=is:pull-request+author:" ++ username
        ++ "+state:closed+is:merged&sort=created&order=desc",
    todayMergedPRs :=
      "search/issues?q=is:pull-request+author:" ++ username
        ++ "+state:closed+is:merged+merged:" ++ today ++ "&sort=created&order=desc" }

/-- The bundle `loadData` builds from the four fetched lists. -/
def makeBundle (assignedIssues openPRs mergedPRs todayMergedPRs : List Item) : Bundle :=
  let allTimeMergedPRs := mergedPRs
  let todayScore := calculateDailyScores todayMergedPRs
  { assignedIssues := assignedIssues, openPRs := openPRs, mergedPRs := mergedPRs,
    todayMergedPRs := todayMergedPRs, allTimeMergedPRs := allTimeMergedPRs,
    todayScore := todayScore }

/-- The function `loadData(username)`: the four fetchers run to the end whatever the others do, so the
requests are those of all four (listed query by query, in the order of
`Object.values(queries)`); the outcome is that of `Promise.all`, and
`catch (error) { throw error }` passes a rejection on. -/
def loadData (env : Env) (fuel : Nat) (username : String) : List HttpCall × Outcome Bundle :=
  let today := env.today
  let q := queries username today
  let fetchQuery := fun (query : String) =>
    fetchPaginatedData env.search ("https://api.github.com/" ++ query) fuel
  let a := fetchQuery q.assignedIssues
  let o := fetchQuery q.openPRs
  let m := fetchQuery q.mergedPRs
  let t := fetchQuery q.todayMergedPRs
  (a.1 ++ o.1 ++ m.1 ++ t.1,
    match Outcome.both a.2 (Outcome.both o.2 (Outcome.both m.2 t.2)) with
    | .fulfilled (assignedIssues, openPRs, mergedPRs, todayMergedPRs) =>
      .fulfilled (makeBundle assignedIssues openPRs mergedPRs todayMergedPRs)
    | .rejected e => .rejected e
    | .pending => .pending)

/-! ## Presentation Formatter -/

/-- One field of an embed; a field written without `inline` is not inline. -/
structure Field where
  name : String
  value : String
  inline : Bool
  deriving DecidableEq, Repr

/-- The payload an `EmbedBuilder` chain builds. -/
structure Embed where
  color : Nat
  title : String
  thumbnail : Option String
  fields : List Field
  timestamp : Bool
  deriving DecidableEq, Repr

/-- The function `buildScoreEmbed(...)`; the count arguments are numbers, the two scores are whatever
the Score Calculator returned, and each is rendered with `.toString()`. -/
def buildScoreEmbed (username avatar_url : String) (totalPRs mergedToday totalMerged : Nat)
    (todayScore allTimeScore : JsValue) (assignedIssues : Nat) : Embed :=
  { color := 0x0099FF
    title := "**Stats for " ++ username ++ "**"
    thumbnail := some avatar_url
    fields :=
      [⟨"👤 **Profile**", "[Click here](https://github.com/" ++ username ++ ")", false⟩,
       ⟨"✨ **Overview** ✨", "\u200b", false⟩,
       ⟨"📑 Total Open PRs:", toString totalPRs, true⟩,
       ⟨"📦 Merged PRs Today:", toString mergedToday, true⟩,
       ⟨"✅ Total Merged PRs:", toString totalMerged, true⟩,
       ⟨"💰 Daily Score:", todayScore.toString, true⟩,
       ⟨"🏆 Total Score:", allTimeScore.toString, true⟩,
       ⟨"📝 Assigned Issues:", toString assignedIssues, true⟩]
    timestamp := false }

/-- The test `pr.labels.some(label => label.name.toLowerCase() === tag)`. -/
def hasLabel (tag : String) (pr : Item) : Bool :=
  pr.labels.any (fun label => toLowerCase label.name = tag)

/-- The embed of the `!gssoc` command, from the three fetched lists it reads. -/
def buildGssocEmbed (username : String) (mergedPRs openPRs assignedIssues : List Item) : Embed :=
  let gssocAssignedPRs := assignedIssues.filter (hasLabel "gssoc-ext")
  let gssocOpenPRs := openPRs.filter (hasLabel "gssoc-ext")
  let gssocMergedPRs := mergedPRs.filter (hasLabel "gssoc-ext")
  let level1 := (gssocMergedPRs.filter (hasLabel "level1")).length
  let level2 := (gssocMergedPRs.filter (hasLabel "level2")).length
  let level3 := (gssocMergedPRs.filter (hasLabel "level3")).length
  { color := 0x6a0dad
    title := "🚀 **GSSoC Stats for " ++ username ++ "** 🚀"
    thumbnail := some ("https://github.com/" ++ username ++ ".png")
    fields :=
      [⟨"👤 **Profile**", "[Click here](https://github.com/" ++ username ++ ")", false⟩,
       ⟨"✨ **GSSoC PRs Overview** ✨", "\u200b", false⟩,
       ⟨"📑 Total GSSoC PRs:", toString gssocMergedPRs.length, true⟩,
       ⟨"📦 Assigned GSSoC PRs:", toString gssocAssignedPRs.length, true⟩,
       ⟨"🔄 Open GSSoC PRs:", toString gssocOpenPRs.length, true⟩,
       ⟨"⚙️ Level 1 GSSoC PRs:", toString level1, true⟩,
       ⟨"⚙️ Level 2 GSSoC PRs:", toString level2, true⟩,
       ⟨"⚙️ Level 3 GSSoC PRs:", toString level3, true⟩]
    timestamp := false }

/-- One line pair `u1: x\nu2: y` of the comparison embed. -/
def versus (username1 value1 username2 value2 : String) : String :=
  username1 ++ ": " ++ value1 ++ "\n" ++ username2 ++ ": " ++ value2

/-- The embed of the `!compare` command. -/
def buildCompareEmbed (username1 username2 : String) (user1Data user2Data : Bundle) : Embed :=
  let user1AllTimeScore := calculateTotalScore user1Data.allTimeMergedPRs
  let user2AllTimeScore := calculateTotalScore user2Data.allTimeMergedPRs
  { color := 0x00ff00
    title := "📊 **GitHub Stats: " ++ username1 ++ " vs " ++ username2 ++ "** 📊"
    thumbnail := none
    fields :=
      [⟨"👤 **Profile**", "[" ++ username1 ++ "](https://github.com/" ++ username1 ++ ") vs ["
          ++ username2 ++ "](https://github.com/" ++ username2 ++ ")", false⟩,
       ⟨"📑 **Total Open PRs**", versus username1 (toString user1Data.openPRs.length)
          username2 (toString user2Data.openPRs.length), true⟩,
       ⟨"✅ **Total Merged PRs**", versus username1 (toString user1Data.mergedPRs.length)
          username2 (toString user2Data.mergedPRs.length), true⟩,
       ⟨"📅 **Merged PRs Today**", versus username1 (toString user1Data.todayMergedPRs.length)
          username2 (toString user2Data.todayMergedPRs.length), true⟩,
       ⟨"💰 **Daily Score**", versus username1 user1Data.todayScore.toString
          username2 user2Data.todayScore.toString, true⟩,
       ⟨"🏆 **Total Score**", versus username1 user1AllTimeScore.toString
          username2 user2AllTimeScore.toString, true⟩,
       ⟨"📝 **Assigned Issues**", versus username1 (toString user1Data.assignedIssues.length)
          username2 (toString user2Data.assignedIssues.length), true⟩]
    timestamp := true }

/-! ## Command parsing -/

/-- The method `s.startsWith(p)` on the characters. -/
def startsWith : List Char → List Char → Bool
  | [], _ => true
  | _ :: _, [] => false
  | p :: ps, c :: cs => p = c && startsWith ps cs

/-- The method `s.split(sep)` for a one-character separator: the pieces between the
separators, empty pieces included. -/
def split (sep : Char) : List Char → List (List Char)
  | [] => [[]]
  | c :: cs =>
    if c = sep then [] :: split sep cs
    else
      match split sep cs with
      | [] => [[c]]
      | piece :: pieces => (c :: piece) :: pieces

/-- The read `args[1]` of the array `message.content.split(' ')`; `none` is `undefined`. -/
def secondArg (content : List Char) : Option String :=
  ((split ' ' content).get? 1).map String.mk

/-- The truth value of a string-or-undefined value: `undefined` and `""` are falsy. -/
def truthy : Option String → Bool
  | none => false
  | some s => s != ""

/-- The white space of JavaScript (`WhiteSpace` and `LineTerminator`): what `\s` matches
and what `trim()` removes. -/
def isSpace (c : Char) : Bool :=
  c.val = 0x9 || c.val = 0xA || c.val = 0xB || c.val = 0xC || c.val = 0xD || c.val = 0x20
    || c.val = 0xA0 || c.val = 0x1680 || (0x2000 ≤ c.val && c.val ≤ 0x200A)
    || c.val = 0x2028 || c.val = 0x2029 || c.val = 0x202F || c.val = 0x205F
    || c.val = 0x3000 || c.val = 0xFEFF

/-- The class `\S`. -/
def notSpace (c : Char) : Bool := !isSpace c

/-- The method `s.trim()`: the white space at both ends is removed. -/
def trim (s : List Char) : List Char :=
  ((s.dropWhile isSpace).reverse.dropWhile isSpace).reverse

/-- A literal letter of the pattern under the flag `i`: equal after upper-casing. -/
def sameLetter (c letter : Char) : Bool := c.toUpper = letter.toUpper

/-- The alternatives of a greedy `X+` in backtracking order: a run of `n`, `n - 1`, ..., `1`
characters is consumed, and `k` continues with the run and the rest. -/
def backtrack {β : Type} (k : List Char → List Char → Option β) (input : List Char) :
    Nat → Option β
  | 0 => none
  | n + 1 =>
    match k (input.take (n + 1)) (input.drop (n + 1)) with
    | some r => some r
    | none => backtrack k input n

/-- A greedy `X+` for a character class `p`, followed by the rest of the pattern `k`. -/
def plusGreedy {β : Type} (p : Char → Bool) (k : List Char → List Char → Option β)
    (input : List Char) : Option β :=
  backtrack k input (input.takeWhile p).length

/-- The pattern `/(\S+)\s+vs\s+(\S+)/i` tried at the start of `input`: the two groups. -/
def matchHere (input : List Char) : Option (List Char × List Char) :=
  plusGreedy notSpace (fun group1 rest1 =>
    plusGreedy isSpace (fun _ rest2 =>
      match rest2 with
      | v :: s :: rest3 =>
        if sameLetter v 'v' && sameLetter s 's' then
          plusGreedy isSpace (fun _ rest4 =>
            plusGreedy notSpace (fun group2 _ => some (group1, group2)) rest4) rest3
        else none
      | _ => none) rest1) input

/-- The call `args.match(compareRegex)`: the pattern is tried at every position from the
left, and the first position with a match wins; `none` is `null`. -/
def compareRegexMatch : List Char → Option (List Char × List Char)
  | [] => matchHere []
  | c :: cs =>
    match matchHere (c :: cs) with
    | some r => some r
    | none => compareRegexMatch cs

/-- The text `args` of the `!compare` command: `content.slice('!compare'.length).trim()`. -/
def compareArgs (content : List Char) : List Char :=
  trim (content.drop "!compare".length)

/-! ## Command Dispatcher (`client.on('messageCreate', ...)`) -/

/-- An incoming chat message: `message.author.bot` and `message.content`. -/
structure Message where
  authorBot : Bool
  content : String

/-- What a command does to the outside, in order. -/
inductive Effect where
  | send (content : String)
  | sendEmbed (embed : Embed)
  | delete (content : String)
  | react (emoji : String)
  | createReactionCollector (time : Nat)
  | consoleError (text : String)
  | http (call : HttpCall)
  deriving DecidableEq, Repr

/-- One of the three `if` blocks of the handler: whether it executed `return`, the value of
`lastQueriedUsername` after it, and its effects. -/
structure Step where
  returned : Bool
  lastQueriedUsername : Option String
  effects : List Effect

/-- The `catch` block of a command: log, delete the placeholder, send the failure notice. -/
def failure (logText placeholder notice : String) : List Effect :=
  [.consoleError logText, .delete placeholder, .send notice]

/-- The callback of the `!github` command, run once the placeholder has been sent. The
callbacks of the reaction collector are not part of the model. -/
def githubReport (env : Env) (fuel : Nat) (username : String) : List Effect :=
  let placeholder := "Fetching data... Please wait!"
  let onError := failure ("Error fetching data for " ++ username ++ ":") placeholder
    "An error occurred while fetching data. Please try again later."
  let profile := fetchUserProfile env.users username
  match profile.2 with
  | .pending => profile.1.map .http
  | .rejected _ => profile.1.map .http ++ onError
  | .fulfilled none => profile.1.map .http ++ onError
  | .fulfilled (some p) =>
    let avatar_url := p.avatar_url
    let data := loadData env fuel username
    match data.2 with
    | .pending => (profile.1 ++ data.1).map .http
    | .rejected _ => (profile.1 ++ data.1).map .http ++ onError
    | .fulfilled b =>
      let allTimeScore := calculateTotalScore b.allTimeMergedPRs
      let scoreEmbed := buildScoreEmbed username avatar_url b.openPRs.length
        b.todayMergedPRs.length b.mergedPRs.length b.todayScore allTimeScore
        b.assignedIssues.length
      (profile.1 ++ data.1).map .http ++
        [.delete placeholder, .sendEmbed scoreEmbed, .react "1️⃣", .react "2️⃣", .react "3️⃣",
         .createReactionCollector 60000]

/-- The block `if (message.content.startsWith('!github'))`. -/
def githubBlock (env : Env) (fuel : Nat) (lastQueriedUsername : Option String)
    (content : List Char) : Step :=
  if startsWith "!github".data content then
    let username := secondArg content
    if !truthy username then
      ⟨true, lastQueriedUsername, [.send "Please provide a valid GitHub username!"]⟩
    else
      let name := username.getD ""
      ⟨false, some name, .send "Fetching data... Please wait!" :: githubReport env fuel name⟩
  else ⟨false, lastQueriedUsername, []⟩

/-- The callback of the `!gssoc` command, run once the placeholder has been sent. -/
def gssocReport (env : Env) (fuel : Nat) (username : String) : List Effect :=
  let placeholder := "Fetching GSSoC data for " ++ username ++ "... Please wait!"
  let onError := failure ("Error fetching GSSoC data for " ++ username ++ ":") placeholder
    "An error occurred while fetching GSSoC data. Please try again later."
  let data := loadData env fuel username
  match data.2 with
  | .pending => data.1.map .http
  | .rejected _ => data.1.map .http ++ onError
  | .fulfilled b =>
    data.1.map .http ++
      [.delete placeholder,
       .sendEmbed (buildGssocEmbed username b.mergedPRs b.openPRs b.assignedIssues)]

/-- The block `if (message.content.startsWith('!gssoc'))`. -/
def gssocBlock (env : Env) (fuel : Nat) (lastQueriedUsername : Option String)
    (content : List Char) : Step :=
  if startsWith "!gssoc".data content then
    let username := if truthy (secondArg content) then secondArg content else lastQueriedUsername
    if !truthy username then
      ⟨true, lastQueriedUsername,
        [.send "Please use the !github command first or provide a username."]⟩
    else
      let name := username.getD ""
      ⟨false, lastQueriedUsername,
        .send ("Fetching GSSoC data for " ++ name ++ "... Please wait!")
          :: gssocReport env fuel name⟩
  else ⟨false, lastQueriedUsername, []⟩

/-- The callback of the `!compare` command, run once the placeholder has been sent: all four
promises are started, so all their requests are issued. -/
def compareReport (env : Env) (fuel : Nat) (username1 username2 : String) : List Effect :=
  let placeholder :=
    "Fetching comparison data for " ++ username1 ++ " vs " ++ username2 ++ "... Please wait!"
  let onError := failure ("Error comparing data for " ++ username1 ++ " vs " ++ username2 ++ ":")
    placeholder
    "An error occurred while fetching comparison data. Please ensure both usernames are correct."
  let profile1 := fetchUserProfile env.users username1
  let data1 := loadData env fuel username1
  let profile2 := fetchUserProfile env.users username2
  let data2 := loadData env fuel username2
  let calls := (profile1.1 ++ data1.1 ++ profile2.1 ++ data2.1).map Effect.http
  match Outcome.both profile1.2 (Outcome.both data1.2 (Outcome.both profile2.2 data2.2)) with
  | .pending => calls
  | .rejected _ => calls ++ onError
  | .fulfilled (user1Profile, user1Data, user2Profile, user2Data) =>
    if user1Profile.isNone || user2Profile.isNone then calls ++ onError
    else
      calls ++ [.delete placeholder,
        .sendEmbed (buildCompareEmbed username1 username2 user1Data user2Data)]

/-- The block `if (message.content.startsWith('!compare'))`. -/
def compareBlock (env : Env) (fuel : Nat) (lastQueriedUsername : Option String)
    (content : List Char) : Step :=
  if startsWith "!compare".data content then
    let args := compareArgs content
    match compareRegexMatch args with
    | none =>
      ⟨true, lastQueriedUsername,
        [.send "Please use the correct format: `!compare <username1> vs <username2>`"]⟩
    | some (group1, group2) =>
      let username1 := String.mk group1
      let username2 := String.mk group2
      ⟨false, lastQueriedUsername,
        .send ("Fetching comparison data for " ++ username1 ++ " vs " ++ username2
            ++ "... Please wait!")
          :: compareReport env fuel username1 username2⟩
  else ⟨false, lastQueriedUsername, []⟩

/-- The handler of `messageCreate`: the new value of `lastQueriedUsername` and the effects.
The three blocks are tried one after the other, as the three `if` statements are, and a
`return` inside a block ends the handler. A callback passed to `then` is run where it
is registered: no two blocks fire on one message, since no text starts with two of the
three command words. -/
def messageCreate (env : Env) (fuel : Nat) (lastQueriedUsername : Option String)
    (message : Message) : Option String × List Effect :=
  if message.authorBot then (lastQueriedUsername, [])
  else
    let content := message.content.data
    let s1 := githubBlock env fuel lastQueriedUsername content
    if s1.returned then (s1.lastQueriedUsername, s1.effects)
    else
      let s2 := gssocBlock env fuel s1.lastQueriedUsername content
      if s2.returned then (s2.lastQueriedUsername, s1.effects ++ s2.effects)
      else
        let s3 := compareBlock env fuel s2.lastQueriedUsername content
        (s3.lastQueriedUsername, s1.effects ++ s2.effects ++ s3.effects)

/-- A search endpoint that holds `results` and serves them in order, page by page; a page
past the end is empty, and every request succeeds with status 200. -/
def pagedEndpoint (results : List Item) : Request → Response SearchBody :=
  fun request =>
    ⟨200, ⟨(results.drop ((request.page - 1) * request.per_page)).take request.per_page⟩⟩

/-- The requests for the pages `first + 1`, ..., `first + count` of `url`, in order. -/
def pageRequests (url : String) (first count : Nat) : List HttpCall :=
  (List.range count).map (fun i => HttpCall.search ⟨url, first + i + 1, 100⟩)

/-- The shape `<token1> vs <token2>`: two non-empty tokens without white space, and
between them the letters `v`, `s` in any case with white space on both sides. -/
def VsForm (a ws1 : List Char) (v s : Char) (ws2 b : List Char) : Prop :=
  a ≠ [] ∧ (∀ c ∈ a, isSpace c = false) ∧
  ws1 ≠ [] ∧ (∀ c ∈ ws1, isSpace c = true) ∧
  (v = 'v' ∨ v = 'V') ∧ (s = 's' ∨ s = 'S') ∧
  ws2 ≠ [] ∧ (∀ c ∈ ws2, isSpace c = true) ∧
  b ≠ [] ∧ (∀ c ∈ b, isSpace c = false)

/-- The text is of the form `<token1> vs <token2>`, from its first character to its last. -/
def IsVsText (text : List Char) : Prop :=
  ∃ a ws1 v s ws2 b, text = a ++ ws1 ++ [v, s] ++ ws2 ++ b ∧ VsForm a ws1 v s ws2 b

/-- The text has a part of the form `<token1> vs <token2>` somewhere inside it. -/
def ContainsVs (text : List Char) : Prop :=
  ∃ before part after, text = before ++ part ++ after ∧ IsVsText part

/-! ## Reading a trace of effects -/

/-- The effect is a call of `fetch`. -/
def Effect.isHttp : Effect → Bool
  | .http _ => true
  | _ => false

/-- The effect puts a message into the channel (`message.channel.send`). -/
def Effect.isChannelMessage : Effect → Bool
  | .send _ => true
  | .sendEmbed _ => true
  | _ => false

/-- The effect is a profile lookup, a request for `https://api.github.com/users/...`. -/
def Effect.isProfileLookup : Effect → Bool
  | .http (.profile _) => true
  | _ => false

/-- The values shown under the field `name` in the embeds a trace sends. -/
def shownUnder (name : String) : List Effect → List String
  | [] => []
  | .sendEmbed embed :: rest =>
    ((embed.fields.filter (fun f => f.name = name)).map (fun f => f.value))
      ++ shownUnder name rest
  | _ :: rest => shownUnder name rest

/-! ## Example inputs -/

/-- A merged pull request labelled `level1`. -/
def level1Item : Item := ⟨"Fix typo", "https://github.com/o/r/pull/1", [⟨"level1"⟩]⟩

/-- A merged pull request labelled `level2`. -/
def level2Item : Item := ⟨"Add tests", "https://github.com/o/r/pull/2", [⟨"level2"⟩]⟩

/-- A merged pull request labelled `level3`. -/
def level3Item : Item := ⟨"New backend", "https://github.com/o/r/pull/3", [⟨"level3"⟩]⟩

/-- A merged pull request whose one label is named `constructor`. -/
def constructorItem : Item :=
  ⟨"Rework constructor", "https://github.com/o/r/pull/4", [⟨"constructor"⟩]⟩

/-- A pull request without labels. -/
def plainItem : Item := ⟨"Update readme", "https://github.com/o/r/pull/5", []⟩

/-- The five merged pull requests of the account `octo`; the first two were merged today. -/
def octoMerged : List Item := [level1Item, level2Item, level3Item, constructorItem, plainItem]

/-- The code-hosting API as the account `octo` sees it on 2024-05-01: three open pull
requests, five merged ones, two of them merged today, no assigned issue. -/
def octoEnv : Env :=
  { users := fun _ => ⟨200, some ⟨"https://avatars.githubusercontent.com/u/1"⟩⟩
    search := fun request =>
      if request.page ≠ 1 then ⟨200, ⟨[]⟩⟩
      else if request.url
          = "https://api.github.com/" ++ (queries "octo" "2024-05-01").openPRs then
        ⟨200, ⟨[plainItem, plainItem, plainItem]⟩⟩
      else if request.url
          = "https://api.github.com/" ++ (queries "octo" "2024-05-01").mergedPRs then
        ⟨200, ⟨octoMerged⟩⟩
      else if request.url
          = "https://api.github.com/" ++ (queries "octo" "2024-05-01").todayMergedPRs then
        ⟨200, ⟨[level1Item, level2Item]⟩⟩
      else ⟨200, ⟨[]⟩⟩
    today := "2024-05-01" }

/-- The code-hosting API when no account exists: every profile lookup answers 404, every
search is empty. -/
def ghostEnv : Env :=
  { users := fun _ => ⟨404, none⟩
    search := fun _ => ⟨200, ⟨[]⟩⟩
    today := "2024-05-01" }

/-- A search endpoint whose first page is full and whose second page answers 503. -/
def secondPageFails : Request → Response SearchBody :=
  fun request =>
    if request.page = 1 then ⟨200, ⟨List.replicate 100 plainItem⟩⟩ else ⟨503, ⟨[]⟩⟩

/-! ## Score Calculator: what the code computes -/

theorem toLower_not_isUpper (c : Char) : (Char.toLower c).isUpper = false := by
  unfold Char.toLower
  simp only
  split
  · rename_i h
    obtain ⟨h1, h2⟩ := h
    have hc : c = Char.ofNat c.toNat := by simp
    generalize c.toNat = n at *
    subst hc
    interval_cases n <;> decide
  · rename_i h
    simp only [Char.isUpper, Char.toNat, ge_iff_le, not_and, not_le] at *
    simp only [Bool.and_eq_false_imp, decide_eq_true_eq, decide_eq_false_iff_not, not_le]
    intro h1
    have := h (by simpa [UInt32.le_def, Fin.le_def] using h1)
    simpa [UInt32.lt_def, Fin.lt_def] using this

/-- A lower-cased string holds no upper-case ASCII letter. -/
theorem toLowerCase_all_not_isUpper (s : String) :
    (toLowerCase s).data.all (fun c => !c.isUpper) = true := by
  simp [toLowerCase, List.all_eq_true, toLower_not_isUpper]

/-- A string with an upper-case ASCII letter is not the lower-casing of any string. -/
theorem toLowerCase_ne_of_upper (s t : String)
    (ht : t.data.all (fun c => !c.isUpper) = false) : toLowerCase s ≠ t := by
  intro h
  have := toLowerCase_all_not_isUpper s
  rw [h] at this
  rw [this] at ht
  exact Bool.noConfusion ht

/-- On a lower-cased name that is neither `constructor` nor `__proto__`, the property read
is the table of the specification: its value when the name is a tier, `undefined` otherwise. -/
theorem labelPoints_toLowerCase (l : Label) (h : l.inherited = false) :
    labelPoints (toLowerCase l.name) =
      if lookup (toLowerCase l.name) = 0 then .undefined
      else .number (lookup (toLowerCase l.name)) := by
  simp only [Label.inherited, Bool.or_eq_false_iff, decide_eq_false_iff_not] at h
  obtain ⟨h1, h2⟩ := h
  have u1 := toLowerCase_ne_of_upper l.name "hasOwnProperty" (by decide)
  have u2 := toLowerCase_ne_of_upper l.name "isPrototypeOf" (by decide)
  have u3 := toLowerCase_ne_of_upper l.name "propertyIsEnumerable" (by decide)
  have u4 := toLowerCase_ne_of_upper l.name "toString" (by decide)
  have u5 := toLowerCase_ne_of_upper l.name "toLocaleString" (by decide)
  have u6 := toLowerCase_ne_of_upper l.name "valueOf" (by decide)
  have u7 := toLowerCase_ne_of_upper l.name "__defineGetter__" (by decide)
  have u8 := toLowerCase_ne_of_upper l.name "__defineSetter__" (by decide)
  have u9 := toLowerCase_ne_of_upper l.name "__lookupGetter__" (by decide)
  have u10 := toLowerCase_ne_of_upper l.name "__lookupSetter__" (by decide)
  generalize toLowerCase l.name = key at *
  unfold labelPoints lookup
  by_cases k1 : key = "level1"
  · simp [k1]
  by_cases k2 : key = "level2"
  · simp [k2]
  by_cases k3 : key = "level3"
  · simp [k3]
  simp [k1, k2, k3, h1, h2, u1, u2, u3, u4, u5, u6, u7, u8, u9, u10]

/-- One label that is not inherited adds its table value to a numeric score. -/
theorem scoreLabel_number (n : Nat) (l : Label) (h : l.inherited = false) :
    scoreLabel (.number n) l = .number (n + lookup (toLowerCase l.name)) := by
  unfold scoreLabel
  simp only [labelPoints_toLowerCase l h]
  by_cases h0 : lookup (toLowerCase l.name) = 0
  · simp [h0, PropValue.truthy]
  · simp [h0, PropValue.truthy, plusAssign]

theorem foldl_scoreLabel_number (labels : List Label) (n : Nat)
    (h : ∀ l ∈ labels, l.inherited = false) :
    labels.foldl scoreLabel (.number n) =
      .number (n + (labels.map (fun l => lookup (toLowerCase l.name))).sum) := by
  induction labels generalizing n with
  | nil => simp
  | cons l ls ih =>
    have hl := h l (List.mem_cons_self l ls)
    have hls : ∀ x ∈ ls, x.inherited = false := fun x hx => h x (List.mem_cons_of_mem l hx)
    simp only [List.foldl_cons, scoreLabel_number n l hl, ih _ hls, List.map_cons, List.sum_cons]
    rw [Nat.add_assoc]

theorem foldl_items_number (items : List Item) (n : Nat)
    (h : ∀ pr ∈ items, ∀ l ∈ pr.labels, l.inherited = false) :
    items.foldl (fun score pr => pr.labels.foldl scoreLabel score) (.number n) =
      .number (n + specScore items) := by
  induction items generalizing n with
  | nil => simp [specScore]
  | cons pr prs ih =>
    have hpr := h pr (List.mem_cons_self pr prs)
    have hprs : ∀ x ∈ prs, ∀ l ∈ x.labels, l.inherited = false :=
      fun x hx => h x (List.mem_cons_of_mem pr hx)
    simp only [List.foldl_cons, foldl_scoreLabel_number pr.labels n hpr, ih _ hprs]
    simp only [specScore, List.map_cons, List.sum_cons, Nat.add_assoc]

/-- Away from labels named `constructor` or `__proto__` (in any letter case) the daily
score is the number the specification describes. -/
theorem calculateDailyScores_eq_specScore (items : List Item)
    (h : ∀ pr ∈ items, ∀ l ∈ pr.labels, l.inherited = false) :
    calculateDailyScores items = .number (specScore items) := by
  unfold calculateDailyScores
  rw [foldl_items_number items 0 h, Nat.zero_add]

/-- Away from labels named `constructor` or `__proto__` (in any letter case) the all-time
score is the number the specification describes. -/
theorem calculateTotalScore_eq_specScore (items : List Item)
    (h : ∀ pr ∈ items, ∀ l ∈ pr.labels, l.inherited = false) :
    calculateTotalScore items = .number (specScore items) := by
  unfold calculateTotalScore
  rw [foldl_items_number items 0 h, Nat.zero_add]

/-- The two score functions are the same function. -/
theorem calculateTotalScore_eq_calculateDailyScores (items : List Item) :
    calculateTotalScore items = calculateDailyScores items := rfl

/-- The score of the specification does not depend on the order of the items. -/
theorem specScore_perm (xs ys : List Item) (h : xs.Perm ys) : specScore xs = specScore ys := by
  unfold specScore
  exact (h.map _).sum_eq

/-- The score of the specification is additive over concatenation. -/
theorem specScore_append (xs ys : List Item) :
    specScore (xs ++ ys) = specScore xs + specScore ys := by
  simp [specScore]

/-! ## Paginated Fetcher -/

theorem pageRequests_one (url : String) (first : Nat) :
    pageRequests url first 1 = [HttpCall.search ⟨url, first + 1, 100⟩] := rfl

theorem pageRequests_succ (url : String) (first count : Nat) :
    pageRequests url first (count + 1) =
      HttpCall.search ⟨url, first + 1, 100⟩ :: pageRequests url (first + 1) count := by
  unfold pageRequests
  rw [List.range_succ_eq_map, List.map_cons, List.map_map]
  congr 1
  apply List.map_congr_left
  intro i _
  simp only [Function.comp, Nat.succ_eq_add_one]
  congr 2
  omega

/-- The loop on an endpoint that serves `results` in pages of 100, started at page `j + 1`
with the first `j` pages accumulated: `c` more full pages and a last short page follow. -/
theorem fetchPaginatedDataLoop_paged (search : Request → Response SearchBody) (url : String)
    (results : List Item)
    (hok : ∀ page, 1 ≤ page → (search ⟨url, page, 100⟩).ok = true)
    (hitems : ∀ page, 1 ≤ page →
      (search ⟨url, page, 100⟩).json.items = (results.drop ((page - 1) * 100)).take 100)
    (c : Nat) : ∀ (j fuel : Nat), j + c = results.length / 100 → c + 1 ≤ fuel →
      fetchPaginatedDataLoop search url fuel (results.take (j * 100)) (j + 1) =
        (pageRequests url j (c + 1), .fulfilled results) := by
  induction c with
  | zero =>
    intro j fuel hj hfuel
    obtain ⟨f, rfl⟩ : ∃ f, fuel = f + 1 := ⟨fuel - 1, by omega⟩
    have hlen : ((results.drop (j * 100)).take 100).length ≠ 100 := by
      rw [List.length_take, List.length_drop]
      have := Nat.lt_div_mul_add (a := results.length) (b := 100) (by decide)
      omega
    have hall : results.take (j * 100) ++ (results.drop (j * 100)).take 100 = results := by
      rw [← List.take_add]
      apply List.take_of_length_le
      have := Nat.lt_div_mul_add (a := results.length) (b := 100) (by decide)
      omega
    unfold fetchPaginatedDataLoop
    simp only [hok (j + 1) (by omega), hitems (j + 1) (by omega), Nat.add_sub_cancel,
      Bool.not_true, Bool.false_eq_true, if_false, hlen, hall]
    rfl
  | succ c ih =>
    intro j fuel hj hfuel
    obtain ⟨f, rfl⟩ : ∃ f, fuel = f + 1 := ⟨fuel - 1, by omega⟩
    have hlen : ((results.drop (j * 100)).take 100).length = 100 := by
      rw [List.length_take, List.length_drop]
      have := Nat.div_mul_le_self results.length 100
      have : (j + (c + 1)) * 100 ≤ results.length := by rw [hj]; exact this
      omega
    have hnext : results.take (j * 100) ++ (results.drop (j * 100)).take 100
        = results.take ((j + 1) * 100) := by
      rw [← List.take_add]; congr 1; omega
    unfold fetchPaginatedDataLoop
    simp only [hok (j + 1) (by omega), hitems (j + 1) (by omega), Nat.add_sub_cancel,
      Bool.not_true, Bool.false_eq_true, if_false, hlen, if_true, hnext]
    rw [ih (j + 1) f (by omega) (by omega), pageRequests_succ url j (c + 1)]

/-- The loop on an endpoint whose pages up to `j + c` are full and succeed and whose page
`j + c + 1` fails: the failure is thrown after exactly `c + 1` more requests. -/
theorem fetchPaginatedDataLoop_fails (search : Request → Response SearchBody) (url : String)
    (k : Nat)
    (hfull : ∀ page, 1 ≤ page → page < k →
      (search ⟨url, page, 100⟩).ok = true ∧ (search ⟨url, page, 100⟩).json.items.length = 100)
    (hfail : (search ⟨url, k, 100⟩).ok = false)
    (c : Nat) : ∀ (j fuel : Nat) (data : List Item), j + c + 1 = k → c + 1 ≤ fuel →
      fetchPaginatedDataLoop search url fuel data (j + 1) =
        (pageRequests url j (c + 1),
          .rejected ⟨"Failed to fetch data from " ++ url ++ ". Status: "
            ++ toString (search ⟨url, k, 100⟩).status⟩) := by
  induction c with
  | zero =>
    intro j fuel data hj hfuel
    obtain ⟨f, rfl⟩ : ∃ f, fuel = f + 1 := ⟨fuel - 1, by omega⟩
    have hk : j + 1 = k := by omega
    unfold fetchPaginatedDataLoop
    simp [hk, hfail, pageRequests_one]
  | succ c ih =>
    intro j fuel data hj hfuel
    obtain ⟨f, rfl⟩ : ∃ f, fuel = f + 1 := ⟨fuel - 1, by omega⟩
    obtain ⟨h1, h2⟩ := hfull (j + 1) (by omega) (by omega)
    unfold fetchPaginatedDataLoop
    simp only [h1, h2, Bool.not_true, Bool.false_eq_true, if_false, if_true]
    rw [ih (j + 1) f _ (by omega) (by omega), pageRequests_succ url j (c + 1)]

/-! ## The pattern of the comparison command -/

theorem sameLetter_v (c : Char) : sameLetter c 'v' = true ↔ (c = 'v' ∨ c = 'V') := by
  constructor
  · intro h
    simp only [sameLetter, decide_eq_true_eq] at h
    have hV : 'v'.toUpper = 'V' := by decide
    rw [hV] at h
    unfold Char.toUpper at h
    simp only at h
    split at h
    · rename_i hr
      obtain ⟨h1, h2⟩ := hr
      have hc : c = Char.ofNat c.toNat := by simp
      generalize c.toNat = n at *
      subst hc
      interval_cases n <;> revert h <;> decide
    · right; exact h
  · rintro (rfl | rfl) <;> decide

theorem sameLetter_s (c : Char) : sameLetter c 's' = true ↔ (c = 's' ∨ c = 'S') := by
  constructor
  · intro h
    simp only [sameLetter, decide_eq_true_eq] at h
    have hS : 's'.toUpper = 'S' := by decide
    rw [hS] at h
    unfold Char.toUpper at h
    simp only at h
    split at h
    · rename_i hr
      obtain ⟨h1, h2⟩ := hr
      have hc : c = Char.ofNat c.toNat := by simp
      generalize c.toNat = n at *
      subst hc
      interval_cases n <;> revert h <;> decide
    · right; exact h
  · rintro (rfl | rfl) <;> decide

theorem take_length_takeWhile (p : Char → Bool) (l : List Char) :
    l.take (l.takeWhile p).length = l.takeWhile p := by
  induction l with
  | nil => rfl
  | cons c cs ih =>
    by_cases hc : p c = true
    · simp [List.takeWhile_cons, hc, ih]
    · simp [List.takeWhile_cons, hc]

theorem drop_length_takeWhile (p : Char → Bool) (l : List Char) :
    l.drop (l.takeWhile p).length = l.dropWhile p := by
  induction l with
  | nil => rfl
  | cons c cs ih =>
    by_cases hc : p c = true
    · simp [List.takeWhile_cons, List.dropWhile_cons, hc, ih]
    · simp [List.takeWhile_cons, List.dropWhile_cons, hc]

/-- The first alternative of a greedy `X+` is the whole run; when the rest of the pattern
accepts it, that is the match. -/
theorem plusGreedy_first {β : Type} (p : Char → Bool) (k : List Char → List Char → Option β)
    (input : List Char) (r : β) (hne : input.takeWhile p ≠ [])
    (hk : k (input.takeWhile p) (input.dropWhile p) = some r) :
    plusGreedy p k input = some r := by
  unfold plusGreedy
  obtain ⟨n, hn⟩ : ∃ n, (input.takeWhile p).length = n + 1 := by
    cases h : input.takeWhile p with
    | nil => exact absurd h hne
    | cons c cs => exact ⟨cs.length, rfl⟩
  rw [hn]
  unfold backtrack
  rw [← hn, take_length_takeWhile, drop_length_takeWhile, hk]

theorem takeWhile_run (p : Char → Bool) (run rest : List Char) (hrun : ∀ c ∈ run, p c = true)
    (hrest : rest.takeWhile p = []) : (run ++ rest).takeWhile p = run := by
  rw [List.takeWhile_append_of_pos hrun, hrest, List.append_nil]

theorem dropWhile_run (p : Char → Bool) (run rest : List Char) (hrun : ∀ c ∈ run, p c = true)
    (hrest : rest.takeWhile p = []) : (run ++ rest).dropWhile p = rest := by
  have h1 := List.takeWhile_append_dropWhile p (run ++ rest)
  rw [takeWhile_run p run rest hrun hrest] at h1
  exact List.append_cancel_left h1

theorem takeWhile_nil_of_head (p : Char → Bool) (l rest : List Char) (hne : l ≠ [])
    (hl : ∀ c ∈ l, p c = false) : (l ++ rest).takeWhile p = [] := by
  cases l with
  | nil => exact absurd rfl hne
  | cons c cs =>
    have := hl c (List.mem_cons_self c cs)
    simp [List.takeWhile_cons, this]

theorem notSpace_of_isSpace_false (l : List Char) (h : ∀ c ∈ l, isSpace c = false) :
    ∀ c ∈ l, notSpace c = true := by
  intro c hc; simp [notSpace, h c hc]

theorem notSpace_false_of_isSpace (l : List Char) (h : ∀ c ∈ l, isSpace c = true) :
    ∀ c ∈ l, notSpace c = false := by
  intro c hc; simp [notSpace, h c hc]

theorem isSpace_letter (c : Char) (h : c = 'v' ∨ c = 'V') : isSpace c = false := by
  rcases h with rfl | rfl <;> decide

/-- The pattern tried at the start of a text that begins with `<token1> vs <token2>`: the
first group is the first token, the second group the second token together with the
characters other than white space that follow it. -/
theorem matchHere_of_form (a ws1 : List Char) (v s : Char) (ws2 b after : List Char)
    (h : VsForm a ws1 v s ws2 b) :
    matchHere (a ++ ws1 ++ [v, s] ++ ws2 ++ b ++ after)
      = some (a, b ++ after.takeWhile notSpace) := by
  obtain ⟨ha, ha', hw1, hw1', hv, hs, hw2, hw2', hb, hb'⟩ := h
  have e1 : a ++ ws1 ++ [v, s] ++ ws2 ++ b ++ after
      = a ++ (ws1 ++ (v :: s :: (ws2 ++ (b ++ after)))) := by simp
  rw [e1]
  unfold matchHere
  have t1 : (ws1 ++ (v :: s :: (ws2 ++ (b ++ after)))).takeWhile notSpace = [] :=
    takeWhile_nil_of_head notSpace ws1 _ hw1 (notSpace_false_of_isSpace ws1 hw1')
  have t2 : (v :: s :: (ws2 ++ (b ++ after))).takeWhile isSpace = [] := by
    simp [List.takeWhile_cons, isSpace_letter v hv]
  have t3 : (b ++ after).takeWhile isSpace = [] :=
    takeWhile_nil_of_head isSpace b _ hb hb'
  apply plusGreedy_first
  · rw [takeWhile_run notSpace a _ (notSpace_of_isSpace_false a ha') t1]; exact ha
  rw [takeWhile_run notSpace a _ (notSpace_of_isSpace_false a ha') t1,
    dropWhile_run notSpace a _ (notSpace_of_isSpace_false a ha') t1]
  apply plusGreedy_first
  · rw [takeWhile_run isSpace ws1 _ hw1' t2]; exact hw1
  rw [dropWhile_run isSpace ws1 _ hw1' t2]
  simp only [(sameLetter_v v).mpr hv, (sameLetter_s s).mpr hs, Bool.and_self, if_true]
  apply plusGreedy_first
  · rw [takeWhile_run isSpace ws2 _ hw2' t3]; exact hw2
  rw [dropWhile_run isSpace ws2 _ hw2' t3]
  apply plusGreedy_first
  · rw [List.takeWhile_append_of_pos (notSpace_of_isSpace_false b hb')]
    simp [hb]
  rw [List.takeWhile_append_of_pos (notSpace_of_isSpace_false b hb')]

theorem backtrack_some {β : Type} (k : List Char → List Char → Option β) (input : List Char)
    (r : β) : ∀ n, backtrack k input n = some r →
      ∃ m, 1 ≤ m ∧ m ≤ n ∧ k (input.take m) (input.drop m) = some r := by
  intro n
  induction n with
  | zero => intro h; simp [backtrack] at h
  | succ n ih =>
    intro h
    unfold backtrack at h
    cases hk : k (input.take (n + 1)) (input.drop (n + 1)) with
    | some r1 =>
      rw [hk] at h
      simp only [Option.some.injEq] at h
      subst h
      exact ⟨n + 1, by omega, le_refl _, hk⟩
    | none =>
      rw [hk] at h
      obtain ⟨m, h1, h2, h3⟩ := ih h
      exact ⟨m, h1, by omega, h3⟩

/-- Whatever alternative of a greedy `X+` leads to a match, it consumed a non-empty run of
characters of the class. -/
theorem plusGreedy_some {β : Type} (p : Char → Bool) (k : List Char → List Char → Option β)
    (input : List Char) (r : β) (h : plusGreedy p k input = some r) :
    ∃ run rest, input = run ++ rest ∧ run ≠ [] ∧ (∀ c ∈ run, p c = true) ∧
      k run rest = some r := by
  obtain ⟨m, h1, h2, h3⟩ := backtrack_some k input r _ h
  refine ⟨input.take m, input.drop m, (List.take_append_drop m input).symm, ?_, ?_, h3⟩
  · intro hnil
    have hlen : (input.takeWhile p).length ≤ input.length :=
      (List.takeWhile_sublist p).length_le
    have := congrArg List.length hnil
    rw [List.length_take] at this
    simp only [List.length_nil] at this
    omega
  · intro c hc
    have hsplit := List.takeWhile_append_dropWhile p input
    have : input.take m = (input.takeWhile p).take m := by
      conv_lhs => rw [← hsplit]
      exact List.take_append_of_le_length h2
    rw [this] at hc
    exact List.mem_takeWhile_imp (List.mem_of_mem_take hc)

theorem isSpace_false_of_notSpace (l : List Char) (h : ∀ c ∈ l, notSpace c = true) :
    ∀ c ∈ l, isSpace c = false := by
  intro c hc
  have := h c hc
  simpa [notSpace] using this

/-- A match of the pattern at the start of a text: the text begins with the first group,
white space, the letters `v` and `s` in some case, white space and the second group. -/
theorem matchHere_some (input g1 g2 : List Char) (h : matchHere input = some (g1, g2)) :
    ∃ ws1 v s ws2 after, input = g1 ++ ws1 ++ [v, s] ++ ws2 ++ g2 ++ after ∧
      VsForm g1 ws1 v s ws2 g2 := by
  unfold matchHere at h
  obtain ⟨a, rest1, e1, ha, ha', h⟩ := plusGreedy_some _ _ _ _ h
  obtain ⟨ws1, rest2, e2, hw1, hw1', h⟩ := plusGreedy_some _ _ _ _ h
  match rest2, e2, h with
  | [], _, h => simp at h
  | [_], _, h => simp at h
  | v :: s :: rest3, e2, h =>
    simp only at h
    by_cases hvs : (sameLetter v 'v' && sameLetter s 's') = true
    · rw [if_pos hvs] at h
      obtain ⟨ws2, rest4, e3, hw2, hw2', h⟩ := plusGreedy_some _ _ _ _ h
      obtain ⟨b, after, e4, hb, hb', h⟩ := plusGreedy_some _ _ _ _ h
      simp only [Option.some.injEq, Prod.mk.injEq] at h
      obtain ⟨rfl, rfl⟩ := h
      simp only [Bool.and_eq_true] at hvs
      refine ⟨ws1, v, s, ws2, after, ?_, ha, isSpace_false_of_notSpace _ ha', hw1, hw1',
        (sameLetter_v v).mp hvs.1, (sameLetter_s s).mp hvs.2, hw2, hw2', hb,
        isSpace_false_of_notSpace _ hb'⟩
      rw [e1, e2, e3, e4]
      simp
    · rw [if_neg hvs] at h
      exact Option.noConfusion h

theorem compareRegexMatch_nil : compareRegexMatch [] = none := rfl

theorem compareRegexMatch_cons (c : Char) (cs : List Char) :
    compareRegexMatch (c :: cs) =
      match matchHere (c :: cs) with
      | some r => some r
      | none => compareRegexMatch cs := rfl

/-- A match found by `args.match(compareRegex)` lies somewhere inside the text. -/
theorem compareRegexMatch_some (text g1 g2 : List Char)
    (h : compareRegexMatch text = some (g1, g2)) :
    ∃ before ws1 v s ws2 after, text = before ++ (g1 ++ ws1 ++ [v, s] ++ ws2 ++ g2) ++ after ∧
      VsForm g1 ws1 v s ws2 g2 := by
  induction text with
  | nil =>
    rw [compareRegexMatch_nil] at h
    exact Option.noConfusion h
  | cons c cs ih =>
    rw [compareRegexMatch_cons] at h
    cases hm : matchHere (c :: cs) with
    | some r =>
      rw [hm] at h
      simp only [Option.some.injEq] at h
      subst h
      obtain ⟨ws1, v, s, ws2, after, e, hf⟩ := matchHere_some _ _ _ hm
      exact ⟨[], ws1, v, s, ws2, after, by rw [e]; simp, hf⟩
    | none =>
      rw [hm] at h
      obtain ⟨before, ws1, v, s, ws2, after, e, hf⟩ := ih h
      exact ⟨c :: before, ws1, v, s, ws2, after, by rw [e]; simp, hf⟩

/-- The pattern finds a match in every text that has a part of the form. -/
theorem compareRegexMatch_of_contains (before part after : List Char) (h : IsVsText part) :
    ∃ r, compareRegexMatch (before ++ part ++ after) = some r := by
  obtain ⟨a, ws1, v, s, ws2, b, rfl, hf⟩ := h
  induction before with
  | nil =>
    have hm := matchHere_of_form a ws1 v s ws2 b after hf
    obtain ⟨c, cs, hc⟩ : ∃ c cs, a = c :: cs := by
      cases a with
      | nil => exact absurd rfl hf.1
      | cons c cs => exact ⟨c, cs, rfl⟩
    subst hc
    refine ⟨(c :: cs, b ++ after.takeWhile notSpace), ?_⟩
    simp only [List.nil_append, List.cons_append] at hm ⊢
    rw [compareRegexMatch_cons, hm]
  | cons c cs ih =>
    obtain ⟨r, hr⟩ := ih
    simp only [List.cons_append]
    rw [compareRegexMatch_cons]
    cases hm : matchHere (c :: (cs ++ (a ++ ws1 ++ [v, s] ++ ws2 ++ b) ++ after)) with
    | some r1 => exact ⟨r1, rfl⟩
    | none => exact ⟨r, hr⟩

/-- The call `args.match(compareRegex)` is `null` exactly on the texts with no part of the form
`<token1> vs <token2>`. -/
theorem compareRegexMatch_eq_none_iff (text : List Char) :
    compareRegexMatch text = none ↔ ¬ ContainsVs text := by
  constructor
  · intro h ⟨before, part, after, e, hp⟩
    obtain ⟨r, hr⟩ := compareRegexMatch_of_contains before part after hp
    rw [← e, h] at hr
    exact Option.noConfusion hr
  · intro h
    cases hm : compareRegexMatch text with
    | none => rfl
    | some r =>
      obtain ⟨g1, g2⟩ := r
      obtain ⟨before, ws1, v, s, ws2, after, e, hf⟩ := compareRegexMatch_some _ _ _ hm
      exact absurd ⟨before, _, after, e, ⟨g1, ws1, v, s, ws2, g2, rfl, hf⟩⟩ h

/-! ## Trimming and the text of the comparison command -/

theorem dropWhile_eq_self (p : Char → Bool) (l : List Char) (h : l.takeWhile p = []) :
    l.dropWhile p = l := by
  have := List.takeWhile_append_dropWhile p l
  rw [h, List.nil_append] at this
  exact this

/-- Trimming removes the white space around a text that starts and ends with a character
other than white space. -/
theorem trim_padded (pad text trail : List Char)
    (hpad : ∀ c ∈ pad, isSpace c = true) (htrail : ∀ c ∈ trail, isSpace c = true)
    (hne : text ≠ [])
    (hhead : text.takeWhile isSpace = []) (hlast : text.reverse.takeWhile isSpace = []) :
    trim (pad ++ text ++ trail) = text := by
  unfold trim
  have h1 : (text ++ trail).takeWhile isSpace = [] := by
    cases text with
    | nil => exact absurd rfl hne
    | cons c cs =>
      simp only [List.cons_append, List.takeWhile_cons] at hhead ⊢
      split at hhead
      · exact absurd hhead (List.cons_ne_nil _ _)
      · rename_i hc; simp [hc]
  rw [List.append_assoc, dropWhile_run isSpace pad _ hpad h1, List.reverse_append,
    dropWhile_run isSpace trail.reverse _ (by simpa using htrail) hlast, List.reverse_reverse]

theorem form_head (a ws1 : List Char) (v s : Char) (ws2 b : List Char)
    (h : VsForm a ws1 v s ws2 b) :
    (a ++ ws1 ++ [v, s] ++ ws2 ++ b).takeWhile isSpace = [] := by
  simp only [List.append_assoc]
  exact takeWhile_nil_of_head isSpace a _ h.1 h.2.1

theorem form_last (a ws1 : List Char) (v s : Char) (ws2 b : List Char)
    (h : VsForm a ws1 v s ws2 b) :
    (a ++ ws1 ++ [v, s] ++ ws2 ++ b).reverse.takeWhile isSpace = [] := by
  obtain ⟨_, _, _, _, _, _, _, _, hb, hb'⟩ := h
  rw [List.reverse_append]
  exact takeWhile_nil_of_head isSpace b.reverse _ (by simpa using hb) (by simpa using hb')

theorem drop_compare (rest : List Char) :
    ("!compare".data ++ rest).drop "!compare".length = rest := rfl

theorem compareRegexMatch_form (a ws1 : List Char) (v s : Char) (ws2 b : List Char)
    (h : VsForm a ws1 v s ws2 b) :
    compareRegexMatch (a ++ ws1 ++ [v, s] ++ ws2 ++ b) = some (a, b) := by
  have hm := matchHere_of_form a ws1 v s ws2 b [] h
  simp only [List.append_nil, List.takeWhile_nil] at hm
  obtain ⟨c, cs, rfl⟩ : ∃ c cs, a = c :: cs := by
    cases a with
    | nil => exact absurd rfl h.1
    | cons c cs => exact ⟨c, cs, rfl⟩
  simp only [List.cons_append] at hm ⊢
  rw [compareRegexMatch_cons, hm]

/-! ## The dispatcher -/

theorem startsWith_iff (p s : List Char) : startsWith p s = true ↔ ∃ rest, s = p ++ rest := by
  induction p generalizing s with
  | nil => simp [startsWith]
  | cons c cs ih =>
    cases s with
    | nil => simp [startsWith]
    | cons d ds =>
      simp only [startsWith, Bool.and_eq_true, decide_eq_true_eq, ih, List.cons_append,
        List.cons.injEq]
      constructor
      · rintro ⟨rfl, rest, rfl⟩; exact ⟨rest, rfl, rfl⟩
      · rintro ⟨rest, rfl, rfl⟩; exact ⟨rfl, rest, rfl⟩

theorem not_github_of_gssoc (content : List Char) (h : startsWith "!gssoc".data content = true) :
    startsWith "!github".data content = false := by
  obtain ⟨rest, rfl⟩ := (startsWith_iff _ _).mp h
  rfl

theorem not_github_of_compare (content : List Char)
    (h : startsWith "!compare".data content = true) :
    startsWith "!github".data content = false := by
  obtain ⟨rest, rfl⟩ := (startsWith_iff _ _).mp h
  rfl

theorem not_gssoc_of_compare (content : List Char)
    (h : startsWith "!compare".data content = true) :
    startsWith "!gssoc".data content = false := by
  obtain ⟨rest, rfl⟩ := (startsWith_iff _ _).mp h
  rfl

theorem gssocBlock_last (env : Env) (fuel : Nat) (last : Option String) (content : List Char) :
    (gssocBlock env fuel last content).lastQueriedUsername = last := by
  unfold gssocBlock
  dsimp only
  split_ifs <;> rfl

theorem compareBlock_last (env : Env) (fuel : Nat) (last : Option String)
    (content : List Char) :
    (compareBlock env fuel last content).lastQueriedUsername = last := by
  unfold compareBlock
  dsimp only
  split
  · split <;> rfl
  · rfl

theorem messageCreate_last (env : Env) (fuel : Nat) (last : Option String) (content : String) :
    (messageCreate env fuel last ⟨false, content⟩).1 =
      (githubBlock env fuel last content.data).lastQueriedUsername := by
  unfold messageCreate
  simp only [Bool.false_eq_true, if_false]
  split
  · rfl
  · split
    · simp only [gssocBlock_last]
    · simp only [compareBlock_last, gssocBlock_last]

/-- On a `!compare` message the first two blocks do nothing, and the handler is the third. -/
theorem messageCreate_compare (env : Env) (fuel : Nat) (last : Option String)
    (content : String) (h : startsWith "!compare".data content.data = true) :
    messageCreate env fuel last ⟨false, content⟩ =
      ((compareBlock env fuel last content.data).lastQueriedUsername,
        (compareBlock env fuel last content.data).effects) := by
  unfold messageCreate
  simp only [Bool.false_eq_true, if_false, githubBlock, gssocBlock,
    not_github_of_compare _ h, not_gssoc_of_compare _ h, List.nil_append]

/-! ## The report command: where the two scores come from -/

/-- The bundle of `loadData`: the daily score is `calculateDailyScores` of the merged-today
list, and the all-time list is the merged list. -/
theorem loadData_fulfilled (env : Env) (fuel : Nat) (username : String) (b : Bundle)
    (h : (loadData env fuel username).2 = .fulfilled b) :
    b.todayScore = calculateDailyScores b.todayMergedPRs ∧ b.allTimeMergedPRs = b.mergedPRs := by
  unfold loadData at h
  simp only at h
  split at h
  · simp only [Outcome.fulfilled.injEq] at h
    subst h
    exact ⟨rfl, rfl⟩
  · exact Outcome.noConfusion h
  · exact Outcome.noConfusion h

theorem shownUnder_append (name : String) (xs ys : List Effect) :
    shownUnder name (xs ++ ys) = shownUnder name xs ++ shownUnder name ys := by
  induction xs with
  | nil => rfl
  | cons x xs ih =>
    cases x <;> simp [shownUnder, ih]

theorem shownUnder_http (name : String) (calls : List HttpCall) :
    shownUnder name (calls.map Effect.http) = [] := by
  induction calls with
  | nil => rfl
  | cons c cs ih => simp [shownUnder, ih]

/-- In a report that succeeds, the daily score shown is `calculateDailyScores` of the
merged-today list and the total score shown is `calculateTotalScore` of the whole merged
list. -/
theorem githubReport_shows_scores (env : Env) (fuel : Nat) (username : String) (p : Profile)
    (b : Bundle) (hp : (fetchUserProfile env.users username).2 = .fulfilled (some p))
    (hd : (loadData env fuel username).2 = .fulfilled b) :
    shownUnder "💰 Daily Score:" (githubReport env fuel username)
        = [(calculateDailyScores b.todayMergedPRs).toString] ∧
      shownUnder "🏆 Total Score:" (githubReport env fuel username)
        = [(calculateTotalScore b.mergedPRs).toString] := by
  obtain ⟨h1, h2⟩ := loadData_fulfilled env fuel username b hd
  unfold githubReport
  simp only [hp, hd, shownUnder_append, shownUnder_http, List.nil_append, h1, h2]
  constructor <;> simp +decide [shownUnder, buildScoreEmbed, List.filter]

/-- The score does not depend on the order of the items, as long as no label is named
`constructor` or `__proto__`. -/
theorem calculateDailyScores_perm (xs ys : List Item) (hperm : xs.Perm ys)
    (h : ∀ pr ∈ xs, ∀ l ∈ pr.labels, l.inherited = false) :
    calculateDailyScores xs = calculateDailyScores ys := by
  have h2 : ∀ pr ∈ ys, ∀ l ∈ pr.labels, l.inherited = false :=
    fun pr hpr => h pr (hperm.mem_iff.mpr hpr)
  rw [calculateDailyScores_eq_specScore xs h, calculateDailyScores_eq_specScore ys h2,
    specScore_perm xs ys hperm]

/-- The score of a concatenation is the sum of the scores of the parts, as long as no
label is named `constructor` or `__proto__`. -/
theorem calculateDailyScores_append (xs ys : List Item)
    (hx : ∀ pr ∈ xs, ∀ l ∈ pr.labels, l.inherited = false)
    (hy : ∀ pr ∈ ys, ∀ l ∈ pr.labels, l.inherited = false) :
    calculateDailyScores (xs ++ ys) = .number (specScore xs + specScore ys) := by
  have hxy : ∀ pr ∈ xs ++ ys, ∀ l ∈ pr.labels, l.inherited = false := by
    intro pr hpr
    rcases List.mem_append.mp hpr with h | h
    · exact hx pr h
    · exact hy pr h
  rw [calculateDailyScores_eq_specScore _ hxy, specScore_append]

/-- A label named `__proto__` turns the score into text as well. -/
theorem calculateDailyScores_proto_label :
    calculateDailyScores [⟨"t", "u", [⟨"__proto__"⟩]⟩] = .string "0[object Object]" := by
  decide

/-! ## The claims -/

/-- C1 (the code departs from the claim): a label named `constructor` has no tier, so the
claim gives the item the score 0; both score functions return the string
`0function Object() { [native code] }` for it, because the read `labelPoints[labelName]`
finds the property `constructor` that every object literal inherits. -/
theorem calculateDailyScores_constructor_label :
    calculateDailyScores [constructorItem]
        = .string "0function Object() \x7b [native code] \x7d" ∧
      calculateTotalScore [constructorItem]
        = .string "0function Object() \x7b [native code] \x7d" ∧
      specScore [constructorItem] = 0 := by
  decide

/-- The example of C1: one item labelled `level1` and `level2` scores 35. -/
theorem calculateDailyScores_two_tiers :
    calculateDailyScores [⟨"t", "u", [⟨"level1"⟩, ⟨"level2"⟩]⟩] = .number 35 ∧
      calculateTotalScore [⟨"t", "u", [⟨"level1"⟩, ⟨"level2"⟩]⟩] = .number 35 := by
  decide

/-- C10 (the code departs from the claim): with a label named `constructor` the score
depends on the order of the items and on the order of the labels inside an item, and the
score of a concatenation is not built from the scores of the parts. -/
theorem calculateDailyScores_order_dependent :
    calculateDailyScores [constructorItem, level1Item]
        = .string "0function Object() \x7b [native code] \x7d10" ∧
      calculateDailyScores [level1Item, constructorItem]
        = .string "10function Object() \x7b [native code] \x7d" ∧
      calculateTotalScore [⟨"t", "u", [⟨"constructor"⟩, ⟨"level1"⟩]⟩]
        = .string "0function Object() \x7b [native code] \x7d10" ∧
      calculateTotalScore [⟨"t", "u", [⟨"level1"⟩, ⟨"constructor"⟩]⟩]
        = .string "10function Object() \x7b [native code] \x7d" ∧
      calculateDailyScores [level1Item] = .number 10 ∧
      calculateDailyScores [constructorItem]
        = .string "0function Object() \x7b [native code] \x7d" := by
  decide

/-- C8 (the code departs from the claim): the report for `octo`, who has five merged pull
requests, two of them merged today and labelled `level1` and `level2`, shows the daily
score 35; the labels of all five that match a tier add up to 80, and the report shows
`80function Object() { [native code] }` as the total score, because one of the five is
labelled `constructor`. -/
theorem report_total_score_constructor_label :
    shownUnder "💰 Daily Score:" (messageCreate octoEnv 1 none ⟨false, "!github octo"⟩).2
        = ["35"] ∧
      shownUnder "🏆 Total Score:" (messageCreate octoEnv 1 none ⟨false, "!github octo"⟩).2
        = ["80function Object() \x7b [native code] \x7d"] ∧
      shownUnder "✅ Total Merged PRs:" (messageCreate octoEnv 1 none ⟨false, "!github octo"⟩).2
        = ["5"] ∧
      specScore octoMerged = 80 := by
  decide

/-- C2: on an endpoint that holds `results` and serves them in order in pages of 100
(a page past the end is empty), every request succeeding, `fetchPaginatedData` finishes
as soon as the fuel covers `results.length / 100 + 1` iterations, issues exactly the
requests for the pages 1, 2, ..., `results.length / 100 + 1`, in that order, and returns
`results`. -/
theorem fetchPaginatedData_complete (search : Request → Response SearchBody) (url : String)
    (results : List Item) (fuel : Nat)
    (hok : ∀ page, 1 ≤ page → (search ⟨url, page, 100⟩).ok = true)
    (hitems : ∀ page, 1 ≤ page →
      (search ⟨url, page, 100⟩).json.items = (results.drop ((page - 1) * 100)).take 100)
    (hfuel : results.length / 100 + 1 ≤ fuel) :
    fetchPaginatedData search url fuel
        = (pageRequests url 0 (results.length / 100 + 1), .fulfilled results) ∧
      (fetchPaginatedData search url fuel).1.length = results.length / 100 + 1 := by
  have h := fetchPaginatedDataLoop_paged search url results hok hitems (results.length / 100)
    0 fuel (by omega) hfuel
  simp only [Nat.zero_mul, List.take_zero, Nat.zero_add] at h
  unfold fetchPaginatedData
  rw [h]
  exact ⟨rfl, by simp [pageRequests]⟩

set_option maxRecDepth 100000 in
/-- C2 at 200 results and at none: three requests, the third one answered with an empty
page, and all 200 items; one request and no item. -/
theorem fetchPaginatedData_complete_witness :
    (fetchPaginatedData (pagedEndpoint (List.replicate 200 plainItem)) "q" 3
        = ([.search ⟨"q", 1, 100⟩, .search ⟨"q", 2, 100⟩, .search ⟨"q", 3, 100⟩],
            .fulfilled (List.replicate 200 plainItem)) ∧
      (pagedEndpoint (List.replicate 200 plainItem) ⟨"q", 3, 100⟩).json.items = []) ∧
    fetchPaginatedData (pagedEndpoint []) "q" 1
        = ([.search ⟨"q", 1, 100⟩], .fulfilled []) :=
  ⟨⟨(fetchPaginatedData_complete (pagedEndpoint (List.replicate 200 plainItem)) "q"
      (List.replicate 200 plainItem) 3 (fun _ _ => rfl) (fun _ _ => rfl) (by decide)).1,
    by decide⟩,
   (fetchPaginatedData_complete (pagedEndpoint []) "q" [] 1 (fun _ _ => rfl)
      (fun _ _ => rfl) (by decide)).1⟩

/-- C3: when the pages before page `k` succeed with exactly 100 items each and the request
for page `k` answers a status `s` outside 200..299, `fetchPaginatedData` is rejected with
an error whose message ends in the status `s`; the requests issued are those for the pages
1, ..., `k` and no other, and no list of items is returned. -/
theorem fetchPaginatedData_failure (search : Request → Response SearchBody) (url : String)
    (k s fuel : Nat) (hk : 1 ≤ k)
    (hfull : ∀ page, 1 ≤ page → page < k →
      (search ⟨url, page, 100⟩).ok = true ∧ (search ⟨url, page, 100⟩).json.items.length = 100)
    (hstatus : (search ⟨url, k, 100⟩).status = s)
    (hfail : (search ⟨url, k, 100⟩).ok = false)
    (hfuel : k ≤ fuel) :
    fetchPaginatedData search url fuel
      = (pageRequests url 0 k,
          .rejected ⟨"Failed to fetch data from " ++ url ++ ". Status: " ++ toString s⟩) := by
  obtain ⟨c, rfl⟩ : ∃ c, k = c + 1 := ⟨k - 1, by omega⟩
  have h := fetchPaginatedDataLoop_fails search url (c + 1) hfull hfail c 0 fuel []
    (by omega) hfuel
  rw [hstatus] at h
  exact h

/-- C3 at a full first page followed by a 503: two requests, then the error. -/
theorem fetchPaginatedData_failure_witness :
    fetchPaginatedData secondPageFails "q" 5
      = ([.search ⟨"q", 1, 100⟩, .search ⟨"q", 2, 100⟩],
          .rejected ⟨"Failed to fetch data from q. Status: 503"⟩) :=
  fetchPaginatedData_failure secondPageFails "q" 2 503 5 (by decide)
    (fun page h1 h2 => by
      have : page = 1 := by omega
      subst this
      exact ⟨rfl, rfl⟩)
    rfl rfl (by decide)

/-- The text of a `!compare` message of the form `<token1> vs <token2>`, with any white
space around it, is matched with the two tokens as the two groups. -/
theorem compareArgs_match_form (a ws1 : List Char) (v s : Char) (ws2 b pad trail : List Char)
    (h : VsForm a ws1 v s ws2 b)
    (hpad : ∀ c ∈ pad, isSpace c = true) (htrail : ∀ c ∈ trail, isSpace c = true) :
    compareRegexMatch
        (compareArgs ("!compare".data ++ (pad ++ (a ++ ws1 ++ [v, s] ++ ws2 ++ b) ++ trail)))
      = some (a, b) := by
  unfold compareArgs
  rw [drop_compare]
  have hne : a ++ ws1 ++ [v, s] ++ ws2 ++ b ≠ [] := by
    simp [h.1]
  rw [trim_padded pad _ trail hpad htrail hne (form_head a ws1 v s ws2 b h)
    (form_last a ws1 v s ws2 b h)]
  exact compareRegexMatch_form a ws1 v s ws2 b h

theorem fetchUserProfile_calls (users : String → Response (Option Profile))
    (username : String) :
    (fetchUserProfile users username).1
      = [.profile ("https://api.github.com/users/" ++ username)] := by
  unfold fetchUserProfile
  dsimp only
  split <;> rfl

theorem fetchPaginatedDataLoop_no_profile (search : Request → Response SearchBody)
    (url : String) : ∀ (fuel : Nat) (data : List Item) (page : Nat),
      ((fetchPaginatedDataLoop search url fuel data page).1.map Effect.http).filter
        Effect.isProfileLookup = [] := by
  intro fuel
  induction fuel with
  | zero => intro data page; rfl
  | succ fuel ih =>
    intro data page
    unfold fetchPaginatedDataLoop
    dsimp only
    split
    · rfl
    · split
      · simp only [List.map_cons, List.filter_cons, Effect.isProfileLookup]
        exact ih _ _
      · rfl

/-- The aggregator issues search requests only. -/
theorem loadData_no_profile (env : Env) (fuel : Nat) (username : String) :
    ((loadData env fuel username).1.map Effect.http).filter Effect.isProfileLookup = [] := by
  unfold loadData
  simp only [List.map_append, List.filter_append, fetchPaginatedData,
    fetchPaginatedDataLoop_no_profile, List.append_nil]

/-- The profile lookups of the callback of `!compare`: the first account, then the second. -/
theorem compareReport_profile_lookups (env : Env) (fuel : Nat) (username1 username2 : String) :
    (compareReport env fuel username1 username2).filter Effect.isProfileLookup =
      [.http (.profile ("https://api.github.com/users/" ++ username1)),
       .http (.profile ("https://api.github.com/users/" ++ username2))] := by
  have hcalls :
      (((fetchUserProfile env.users username1).1 ++ (loadData env fuel username1).1
          ++ (fetchUserProfile env.users username2).1
          ++ (loadData env fuel username2).1).map Effect.http).filter Effect.isProfileLookup =
        [.http (.profile ("https://api.github.com/users/" ++ username1)),
         .http (.profile ("https://api.github.com/users/" ++ username2))] := by
    simp only [List.map_append, List.filter_append, loadData_no_profile,
      fetchUserProfile_calls, List.append_nil]
    rfl
  unfold compareReport
  dsimp only
  split
  · exact hcalls
  · rw [List.filter_append, hcalls]
    rfl
  · split
    · rw [List.filter_append, hcalls]
      rfl
    · rw [List.filter_append, hcalls]
      rfl

/-- C4: a `!compare` message whose text is `<token1> vs <token2>` (tokens non-empty and
free of white space, `vs` in any letter case with white space on both sides), with any
white space before and after the text: the pattern yields the pair (token1, token2); the
command announces the comparison of token1 with token2 and runs its callback with
token1 as the first account and token2 as the second; and the profile lookups it issues
are that of token1 followed by that of token2. -/
theorem compare_parses_tokens (env : Env) (fuel : Nat) (last : Option String)
    (a ws1 : List Char) (v s : Char) (ws2 b pad trail : List Char)
    (h : VsForm a ws1 v s ws2 b)
    (hpad : ∀ c ∈ pad, isSpace c = true) (htrail : ∀ c ∈ trail, isSpace c = true) :
    compareRegexMatch
        (compareArgs ("!compare".data ++ (pad ++ (a ++ ws1 ++ [v, s] ++ ws2 ++ b) ++ trail)))
      = some (a, b) ∧
    messageCreate env fuel last
        ⟨false, String.mk ("!compare".data ++ (pad ++ (a ++ ws1 ++ [v, s] ++ ws2 ++ b) ++ trail))⟩
      = (last,
          .send ("Fetching comparison data for " ++ String.mk a ++ " vs " ++ String.mk b
              ++ "... Please wait!")
            :: compareReport env fuel (String.mk a) (String.mk b)) ∧
    (messageCreate env fuel last
        ⟨false, String.mk ("!compare".data ++ (pad ++ (a ++ ws1 ++ [v, s] ++ ws2 ++ b) ++ trail))⟩
      ).2.filter Effect.isProfileLookup
      = [.http (.profile ("https://api.github.com/users/" ++ String.mk a)),
         .http (.profile ("https://api.github.com/users/" ++ String.mk b))] := by
  have hmatch := compareArgs_match_form a ws1 v s ws2 b pad trail h hpad htrail
  have hcmd : startsWith "!compare".data
      (String.mk ("!compare".data ++ (pad ++ (a ++ ws1 ++ [v, s] ++ ws2 ++ b) ++ trail))).data
        = true := (startsWith_iff _ _).mpr ⟨_, rfl⟩
  have hrun : messageCreate env fuel last
      ⟨false, String.mk ("!compare".data ++ (pad ++ (a ++ ws1 ++ [v, s] ++ ws2 ++ b) ++ trail))⟩
      = (last,
          .send ("Fetching comparison data for " ++ String.mk a ++ " vs " ++ String.mk b
              ++ "... Please wait!")
            :: compareReport env fuel (String.mk a) (String.mk b)) := by
    rw [messageCreate_compare env fuel last _ hcmd]
    unfold compareBlock
    simp only [hcmd, if_true, hmatch]
  refine ⟨hmatch, hrun, ?_⟩
  rw [hrun]
  simp only [List.filter_cons, Effect.isProfileLookup, compareReport_profile_lookups]
  rfl

/-- C4 at `alice vs bob`, where both accounts exist and have no activity: the comparison
that is sent names `alice` first and `bob` second. -/
theorem compare_parses_tokens_witness :
    (compareRegexMatch (compareArgs "!compare alice vs bob".data)
        = some ("alice".data, "bob".data) ∧
      messageCreate octoEnv 1 none ⟨false, "!compare alice vs bob"⟩
        = (none,
            .send "Fetching comparison data for alice vs bob... Please wait!"
              :: compareReport octoEnv 1 "alice" "bob") ∧
      (messageCreate octoEnv 1 none ⟨false, "!compare alice vs bob"⟩).2.filter
          Effect.isProfileLookup
        = [.http (.profile "https://api.github.com/users/alice"),
           .http (.profile "https://api.github.com/users/bob")]) ∧
    shownUnder "👤 **Profile**" (messageCreate octoEnv 1 none ⟨false, "!compare alice vs bob"⟩).2
      = ["[alice](https://github.com/alice) vs [bob](https://github.com/bob)"] ∧
    shownUnder "📑 **Total Open PRs**"
        (messageCreate octoEnv 1 none ⟨false, "!compare octo vs bob"⟩).2
      = ["octo: 3\nbob: 0"] :=
  ⟨compare_parses_tokens octoEnv 1 none "alice".data [' '] 'v' 's' [' '] "bob".data [' '] []
      (by unfold VsForm; decide) (by decide) (by decide),
    by decide, by decide⟩

theorem filter_http_channel (calls : List HttpCall) :
    (calls.map Effect.http).filter Effect.isChannelMessage = [] := by
  induction calls with
  | nil => rfl
  | cons c cs ih => simp [List.filter_cons, Effect.isChannelMessage]

theorem both_rejected_left {α β : Type} (e : JsError) (y : Outcome β) :
    Outcome.both (Outcome.rejected e : Outcome α) y = .rejected e := by
  cases y <;> rfl

theorem both_rejected_right {α β : Type} (x : Outcome α) (e : JsError) :
    ∃ e1, Outcome.both x (Outcome.rejected e : Outcome β) = .rejected e1 := by
  cases x <;> exact ⟨_, rfl⟩

theorem fetchUserProfile_rejected (users : String → Response (Option Profile))
    (username : String) (h : (users ("https://api.github.com/users/" ++ username)).ok = false) :
    ∃ e, (fetchUserProfile users username).2 = .rejected e := by
  unfold fetchUserProfile
  simp only [h, Bool.not_false, if_true]
  exact ⟨_, rfl⟩

/-- When a profile lookup is rejected, the callback of `!compare` ends in the `catch`
block whatever the other three promises do. -/
theorem compareReport_rejected (env : Env) (fuel : Nat) (username1 username2 : String)
    (h : (env.users ("https://api.github.com/users/" ++ username1)).ok = false ∨
      (env.users ("https://api.github.com/users/" ++ username2)).ok = false) :
    (compareReport env fuel username1 username2).filter Effect.isChannelMessage =
      [.send ("An error occurred while fetching comparison data. "
        ++ "Please ensure both usernames are correct.")] := by
  have hrej : ∃ e, Outcome.both (fetchUserProfile env.users username1).2
      (Outcome.both (loadData env fuel username1).2
        (Outcome.both (fetchUserProfile env.users username2).2
          (loadData env fuel username2).2)) = .rejected e := by
    rcases h with h | h
    · obtain ⟨e, he⟩ := fetchUserProfile_rejected env.users username1 h
      rw [he]
      exact ⟨e, both_rejected_left e _⟩
    · obtain ⟨e, he⟩ := fetchUserProfile_rejected env.users username2 h
      rw [he]
      rw [both_rejected_left e]
      obtain ⟨e2, he2⟩ := both_rejected_right (β := Option Profile × Bundle)
        (loadData env fuel username1).2 e
      rw [he2]
      exact both_rejected_right _ e2
  obtain ⟨e, he⟩ := hrej
  unfold compareReport
  simp only [he, List.filter_append, filter_http_channel, List.nil_append]
  rfl

/-- C9: a well-formed `!compare` message, parsed to the accounts `g1` and `g2`: when the
profile lookup of one of the two answers a status outside 200..299, the messages the
command puts into the channel are the placeholder and one generic failure notice, and
nothing else; no comparison embed is sent, whatever the other lookups return. -/
theorem compare_profile_failure (env : Env) (fuel : Nat) (last : Option String)
    (content : String) (g1 g2 : List Char)
    (hcmd : startsWith "!compare".data content.data = true)
    (hmatch : compareRegexMatch (compareArgs content.data) = some (g1, g2))
    (hfail : (env.users ("https://api.github.com/users/" ++ String.mk g1)).ok = false ∨
      (env.users ("https://api.github.com/users/" ++ String.mk g2)).ok = false) :
    (messageCreate env fuel last ⟨false, content⟩).2.filter Effect.isChannelMessage =
      [.send ("Fetching comparison data for " ++ String.mk g1 ++ " vs " ++ String.mk g2
          ++ "... Please wait!"),
       .send ("An error occurred while fetching comparison data. "
          ++ "Please ensure both usernames are correct.")] := by
  rw [messageCreate_compare env fuel last content hcmd]
  unfold compareBlock
  simp only [hcmd, if_true, hmatch, List.filter_cons, Effect.isChannelMessage,
    compareReport_rejected env fuel _ _ hfail]

/-- C9 at `alice vs ghost404`, where only `alice` exists. -/
theorem compare_profile_failure_witness :
    (messageCreate
        { users := fun url =>
            if url = "https://api.github.com/users/alice" then ⟨200, some ⟨"a.png"⟩⟩
            else ⟨404, none⟩
          search := fun _ => ⟨200, ⟨[]⟩⟩
          today := "2024-05-01" }
        1 none ⟨false, "!compare alice vs ghost404"⟩).2.filter Effect.isChannelMessage =
      [.send "Fetching comparison data for alice vs ghost404... Please wait!",
       .send ("An error occurred while fetching comparison data. "
          ++ "Please ensure both usernames are correct.")] :=
  compare_profile_failure _ 1 none "!compare alice vs ghost404" "alice".data "ghost404".data
    (by decide) (by decide) (Or.inr (by decide))

/-- C6: a `!gssoc` message whose account argument is missing (`args[1]` is `undefined` or
empty), while `lastQueriedUsername` is still `null`: the only effect is the guidance
message; no request is made and `lastQueriedUsername` stays `null`. -/
theorem gssoc_without_account (env : Env) (fuel : Nat) (content : String)
    (hcmd : startsWith "!gssoc".data content.data = true)
    (harg : truthy (secondArg content.data) = false) :
    messageCreate env fuel none ⟨false, content⟩
      = (none, [.send "Please use the !github command first or provide a username."]) := by
  unfold messageCreate
  have hnone : truthy none = false := rfl
  simp only [Bool.false_eq_true, if_false, githubBlock, not_github_of_gssoc _ hcmd,
    gssocBlock, hcmd, harg, if_true, hnone, Bool.not_false, List.nil_append]

/-- C6 at the message `!gssoc`. -/
theorem gssoc_without_account_witness :
    messageCreate octoEnv 1 none ⟨false, "!gssoc"⟩
      = (none, [.send "Please use the !github command first or provide a username."]) :=
  gssoc_without_account octoEnv 1 "!gssoc" (by decide) (by decide)

theorem githubBlock_last (env : Env) (fuel : Nat) (last : Option String) (content : List Char) :
    (githubBlock env fuel last content).lastQueriedUsername =
      if startsWith "!github".data content = true ∧ truthy (secondArg content) = true
      then secondArg content else last := by
  unfold githubBlock
  dsimp only
  by_cases h1 : startsWith "!github".data content = true
  · cases h2 : secondArg content with
    | none => simp [h1, truthy]
    | some name =>
      by_cases h3 : truthy (some name) = true
      · simp [h1, h3]
      · simp [h1, h3]
  · simp [h1]

/-- C7 as amended: `lastQueriedUsername` after a message is the account argument when the
message is a `!github` message, not written by a bot, with a non-empty account argument,
whether the report then succeeds or fails; after every other message it is unchanged. -/
theorem messageCreate_lastQueriedUsername (env : Env) (fuel : Nat) (last : Option String)
    (message : Message) :
    (messageCreate env fuel last message).1 =
      if message.authorBot = false ∧ startsWith "!github".data message.content.data = true
          ∧ truthy (secondArg message.content.data) = true
      then secondArg message.content.data else last := by
  obtain ⟨bot, content⟩ := message
  cases bot with
  | true => simp [messageCreate]
  | false =>
    rw [messageCreate_last, githubBlock_last]
    simp

/-- C7 (the claim fails): the account `ghost404` does not exist, the report fails with the
generic notice, and `lastQueriedUsername` has changed from `alice` to `ghost404`. -/
theorem failed_report_overwrites_last :
    messageCreate ghostEnv 1 (some "alice") ⟨false, "!github ghost404"⟩ =
      (some "ghost404",
        [.send "Fetching data... Please wait!",
         .http (.profile "https://api.github.com/users/ghost404"),
         .consoleError "Error fetching data for ghost404:",
         .delete "Fetching data... Please wait!",
         .send "An error occurred while fetching data. Please try again later."]) := by
  decide

/-- C5 as amended: a `!compare` message in whose text no part has the form
`<token1> vs <token2>`: the only effect is the usage message, no request is made. -/
theorem compare_usage_of_no_match (env : Env) (fuel : Nat) (last : Option String)
    (content : String)
    (hcmd : startsWith "!compare".data content.data = true)
    (hform : ¬ ContainsVs (compareArgs content.data)) :
    messageCreate env fuel last ⟨false, content⟩ =
      (last, [.send "Please use the correct format: `!compare <username1> vs <username2>`"]) := by
  rw [messageCreate_compare env fuel last content hcmd]
  unfold compareBlock
  simp only [hcmd, if_true, (compareRegexMatch_eq_none_iff _).mpr hform]

/-- C5 as amended, at `alicevsbob`. -/
theorem compare_usage_of_no_match_witness :
    messageCreate octoEnv 1 none ⟨false, "!compare alicevsbob"⟩ =
      (none, [.send "Please use the correct format: `!compare <username1> vs <username2>`"]) :=
  compare_usage_of_no_match octoEnv 1 none "!compare alicevsbob" (by decide)
    ((compareRegexMatch_eq_none_iff _).mp (by decide))

/-- C5 (the claim fails): the text `please alice vs bob now` is not of the form
`<token1> vs <token2>`, the command does not answer with the usage message: it compares
`alice` with `bob`, issuing ten requests. -/
theorem compare_accepts_embedded_form :
    ¬ IsVsText "please alice vs bob now".data ∧
      compareRegexMatch (compareArgs "!compare please alice vs bob now".data)
        = some ("alice".data, "bob".data) ∧
      (messageCreate ghostEnv 1 none ⟨false, "!compare please alice vs bob now"⟩).2.head?
        = some (.send "Fetching comparison data for alice vs bob... Please wait!") ∧
      ((messageCreate ghostEnv 1 none ⟨false, "!compare please alice vs bob now"⟩).2.filter
        Effect.isHttp).length = 10 := by
  refine ⟨?_, by decide, by decide, by decide⟩
  rintro ⟨a, ws1, v, s, ws2, b, e, hf⟩
  have hm := matchHere_of_form a ws1 v s ws2 b [] hf
  rw [List.append_nil, ← e] at hm
  have hnone : matchHere "please alice vs bob now".data = none := by decide
  rw [hnone] at hm
  exact Option.noConfusion hm

end GithubDiscordBot
